import Mathlib

/-!
# ethermintvm state-test harness

A shallow embedding of `cmd/ethermintvm/state_test_util.go` and
`cmd/ethermintvm/state_test_fn.go`.

* Go maps (`Post`, `Pre`, the fixture itself) are association lists; the list
  order stands for the order in which `range` visits the map.
* Go `int` is `Int`, `uint64` is `Nat`, `*big.Int` is `Int`, byte arrays are
  lists of naturals.
* A Go function returning `(value, error)` returns an `Outcome`; a run-time
  panic (slice index out of range, nil dereference) is the third constructor,
  `fault`.
* The imported libraries (go-ethereum, the ethermint application, the standard
  library parsers) are the fields of `Lib`; the general theorems quantify over
  them, the evaluations on fixtures use the small library `demoLib`.
* Each store or engine operation the harness performs is recorded, in program
  order, in a list of `Call`s carried next to the store.
-/

set_option autoImplicit false

namespace Ethermintvm

/-- Bytes of a `common.Hash` (32 bytes in Go). -/
abbrev Hash := List Nat

/-- Bytes of a `common.Address` (20 bytes in Go). -/
abbrev Address := List Nat

/-- The value of `common.Hash{}`. -/
def zeroHash : Hash := List.replicate 32 0

/-- The value of an unassigned `common.Address`. -/
def zeroAddress : Address := List.replicate 20 0

/-- Go `error` values the harness produces: `fmt.Errorf` messages and
`tests.UnsupportedForkError`. -/
inductive GoError where
  | errorf (msg : String)
  | unsupportedFork (name : String)
  deriving DecidableEq, Repr

/-- Go run-time panics the harness can raise. -/
inductive Fault where
  | indexOutOfRange (index : Int) (length : Nat)
  | nilPointerDereference
  deriving DecidableEq, Repr

/-- Result of a Go function returning `(value, error)` that may also panic. -/
inductive Outcome (α : Type) where
  | ok (a : α)
  | err (e : GoError)
  | fault (f : Fault)
  deriving DecidableEq, Repr

/-- The `Indexes` member of `stPostState`. -/
structure stIndexes where
  Data : Int
  Gas : Int
  Value : Int
  deriving DecidableEq, Repr

structure stPostState where
  Root : Hash
  Logs : Hash
  Indexes : stIndexes
  deriving DecidableEq, Repr

structure stEnv where
  Coinbase : Address
  Difficulty : Option Int
  GasLimit : Nat
  Number : Nat
  Timestamp : Nat
  deriving DecidableEq, Repr

structure stTransaction where
  GasPrice : Option Int
  Nonce : Nat
  To : String
  Data : List String
  GasLimit : List Nat
  Value : List String
  PrivateKey : List Nat
  deriving DecidableEq, Repr

/-- One account of `core.GenesisAlloc`. -/
structure GenesisAccount where
  Code : List Nat
  Storage : List (Hash × Hash)
  Balance : Int
  Nonce : Nat
  deriving DecidableEq, Repr

abbrev GenesisAlloc := List (Address × GenesisAccount)

structure stJSON where
  Env : stEnv
  Pre : GenesisAlloc
  Tx : stTransaction
  Out : List Nat
  Post : List (String × List stPostState)
  deriving DecidableEq, Repr

structure StateTest where
  json : stJSON
  deriving DecidableEq, Repr

structure StateSubtest where
  Fork : String
  Index : Int
  deriving DecidableEq, Repr

/-- The value built by `types.NewMessage`. -/
structure Message where
  From : Address
  To : Option Address
  Nonce : Nat
  Amount : Int
  GasLimit : Nat
  GasPrice : Option Int
  Data : List Nat
  CheckNonce : Bool
  deriving DecidableEq, Repr

/-- The part of `vm.Context` that `core.NewEVMContext` takes from the message
and the author; the block number, time, difficulty and gas limit come from the
header of the block. -/
structure EVMContext where
  Origin : Address
  Coinbase : Address
  GasPrice : Int
  deriving DecidableEq, Repr

/-- The value of `core.Genesis` built by `StateTest.genesis`. -/
structure Genesis (Config : Type) where
  Config : Config
  Coinbase : Address
  Difficulty : Option Int
  GasLimit : Nat
  Number : Nat
  Timestamp : Nat
  Alloc : GenesisAlloc

structure StatetestResult where
  Name : String
  Pass : Bool
  Fork : String
  Error : String
  State : Option Unit
  deriving DecidableEq, Repr

/-- Operations on the state store and the engine, as they are invoked. -/
inductive Call where
  | newStateDB
  | setParams (denom : String)
  | setCode (addr : Address) (code : List Nat)
  | setNonce (addr : Address) (nonce : Nat)
  | setBalance (addr : Address) (amount : Int)
  | setState (addr : Address) (key value : Hash)
  | commit (deleteEmptyObjects : Bool)
  | snapshot
  | applyMessage (msg : Message) (gas : Nat)
  | revertToSnapshot (id : Int)
  | addBalance (addr : Address) (amount : Int)
  | intermediateRoot (deleteEmptyObjects : Bool)
  deriving DecidableEq, Repr

/-- The imported collaborators: go-ethereum (`crypto`, `common`, `math`,
`core`, `tests`), the standard library (`hex`, `fmt`, `ioutil`, `json`) and
the ethermint application with its commit state store. -/
structure Lib where
  Key : Type
  ChainConfig : Type
  Block : Type
  StateDB : Type
  /-- The function `crypto.ToECDSA`. -/
  toECDSA : List Nat → Except String Key
  /-- The function `crypto.PubkeyToAddress` of the key's public half. -/
  pubkeyToAddress : Key → Address
  /-- The method `common.Address.UnmarshalText`. -/
  unmarshalText : String → Except String Address
  /-- The function `math.ParseBig256`. -/
  parseBig256 : String → Option Int
  /-- The function `hex.DecodeString`. -/
  hexDecodeString : String → Option (List Nat)
  /-- The verb `%q` of `fmt`. -/
  quote : String → String
  /-- The function `tests.GetChainConfig`: base configuration and extra EIPs. -/
  getChainConfig : String → Option (ChainConfig × List Int)
  /-- The method `params.ChainConfig.IsEIP158`. -/
  isEIP158 : ChainConfig → Nat → Bool
  /-- The method `core.Genesis.ToBlock` on a nil database. -/
  toBlock : Genesis ChainConfig → Block
  blockGasLimit : Block → Nat
  blockNumber : Block → Nat
  blockCoinbase : Block → Address
  /-- A fresh application on an empty database, chain initialised, with the
  commit state store bound to a new context. -/
  newStateDB : StateDB
  setParams : String → StateDB → StateDB
  setCode : Address → List Nat → StateDB → StateDB
  setNonce : Address → Nat → StateDB → StateDB
  setBalance : Address → Int → StateDB → StateDB
  setState : Address → Hash → Hash → StateDB → StateDB
  commit : Bool → StateDB → StateDB
  snapshot : StateDB → Int × StateDB
  /-- The function `core.ApplyMessage` on the EVM that `vm.NewEVM` builds from
  the context, the store, the configuration and the extra EIPs; `some e` is its
  error. -/
  applyMessage : ChainConfig → List Int → Block → EVMContext → Message → Nat →
    StateDB → Option String × StateDB
  revertToSnapshot : Int → StateDB → StateDB
  addBalance : Address → Int → StateDB → StateDB
  intermediateRoot : Bool → StateDB → Hash × StateDB
  /-- The value `rlpHash(statedb.Logs())`. -/
  logsHash : StateDB → Hash
  /-- The function `ioutil.ReadFile`. -/
  readFile : String → Except String (List Nat)
  /-- The function `json.Unmarshal` into `map[string]StateTest`. -/
  unmarshalTests : List Nat → Except String (List (String × StateTest))

/-- A state store together with the calls made so far. -/
structure Store (L : Lib) where
  db : L.StateDB
  calls : List Call

/-- What `RunNoVerify` returns, and the calls it made. -/
structure NoVerifyOut (L : Lib) where
  statedb : Option L.StateDB
  root : Hash
  err : Option GoError
  calls : List Call

/-- What `Run` returns, and the calls it made. -/
structure RunOut (L : Lib) where
  statedb : Option L.StateDB
  err : Option GoError
  calls : List Call

/-- What `runTestFile` returns and what it printed on standard output. -/
structure FileOut where
  printed : Option (List StatetestResult)
  err : Option String
  deriving DecidableEq, Repr

/-! ## Formatting and indexing -/

/-- Lower-case hexadecimal digit. -/
def hexDigit (n : Nat) : Char :=
  ("0123456789abcdef".toList).getD n '0'

/-- The verb `%x` on a byte array. -/
def hexString (bs : List Nat) : String :=
  String.mk (bs.flatMap fun b => [hexDigit (b / 16 % 16), hexDigit (b % 16)])

/-- The verb `%d`. -/
def fmtInt (i : Int) : String := toString i

/-- Go slice indexing `xs[i]`. -/
def goIndex {α : Type} (xs : List α) (i : Int) : Except Fault α :=
  if i < 0 then .error (.indexOutOfRange i xs.length)
  else
    match xs[i.toNat]? with
    | some x => .ok x
    | none => .error (.indexOutOfRange i xs.length)

/-- Go map indexing `m[k]` on a map of slices: the nil slice when absent. -/
def mapIndex {β : Type} (m : List (String × List β)) (k : String) : List β :=
  match m.find? (fun p => p.1 == k) with
  | some p => p.2
  | none => []

/-- The call `strings.TrimPrefix(s, "0x")`. -/
def trimPrefix0x (s : String) : String :=
  match s.data with
  | '0' :: 'x' :: rest => String.mk rest
  | _ => s

/-- The method `Error()`. -/
def GoError.Error (L : Lib) : GoError → String
  | .errorf msg => msg
  | .unsupportedFork name => "unsupported fork " ++ L.quote name

/-! ## The state store, with its calls recorded -/

namespace Store

/-- The store of a fresh application: `app.NewEthermintApp`, `InitChain`,
`CommitStateDB.WithContext`. -/
def fresh (L : Lib) : Store L :=
  ⟨L.newStateDB, [Call.newStateDB]⟩

def SetParams (L : Lib) (denom : String) (s : Store L) : Store L :=
  ⟨L.setParams denom s.db, s.calls ++ [Call.setParams denom]⟩

def SetCode (L : Lib) (addr : Address) (code : List Nat) (s : Store L) : Store L :=
  ⟨L.setCode addr code s.db, s.calls ++ [Call.setCode addr code]⟩

def SetNonce (L : Lib) (addr : Address) (nonce : Nat) (s : Store L) : Store L :=
  ⟨L.setNonce addr nonce s.db, s.calls ++ [Call.setNonce addr nonce]⟩

def SetBalance (L : Lib) (addr : Address) (amount : Int) (s : Store L) : Store L :=
  ⟨L.setBalance addr amount s.db, s.calls ++ [Call.setBalance addr amount]⟩

def SetState (L : Lib) (addr : Address) (key value : Hash) (s : Store L) : Store L :=
  ⟨L.setState addr key value s.db, s.calls ++ [Call.setState addr key value]⟩

def Commit (L : Lib) (deleteEmptyObjects : Bool) (s : Store L) : Store L :=
  ⟨L.commit deleteEmptyObjects s.db, s.calls ++ [Call.commit deleteEmptyObjects]⟩

def Snapshot (L : Lib) (s : Store L) : Int × Store L :=
  ((L.snapshot s.db).1, ⟨(L.snapshot s.db).2, s.calls ++ [Call.snapshot]⟩)

/-- The call `core.ApplyMessage(evm, msg, gaspool)` on the EVM of this store. -/
def ApplyMessage (L : Lib) (config : L.ChainConfig) (eips : List Int) (block : L.Block)
    (context : EVMContext) (msg : Message) (gas : Nat) (s : Store L) :
    Option String × Store L :=
  ((L.applyMessage config eips block context msg gas s.db).1,
    ⟨(L.applyMessage config eips block context msg gas s.db).2,
      s.calls ++ [Call.applyMessage msg gas]⟩)

def RevertToSnapshot (L : Lib) (id : Int) (s : Store L) : Store L :=
  ⟨L.revertToSnapshot id s.db, s.calls ++ [Call.revertToSnapshot id]⟩

def AddBalance (L : Lib) (addr : Address) (amount : Int) (s : Store L) : Store L :=
  ⟨L.addBalance addr amount s.db, s.calls ++ [Call.addBalance addr amount]⟩

def IntermediateRoot (L : Lib) (deleteEmptyObjects : Bool) (s : Store L) : Hash × Store L :=
  ((L.intermediateRoot deleteEmptyObjects s.db).1,
    ⟨(L.intermediateRoot deleteEmptyObjects s.db).2,
      s.calls ++ [Call.intermediateRoot deleteEmptyObjects]⟩)

end Store

/-! ## state_test_util.go -/

/-- The method `StateTest.Subtests`: every fork of `Post`, every position of
its list. -/
def StateTest.Subtests (t : StateTest) : List StateSubtest :=
  t.json.Post.flatMap fun p =>
    (List.range p.2.length).map fun (i : Nat) =>
      ({ Fork := p.1, Index := Int.ofNat i } : StateSubtest)

/-- The expression `t.json.Post[subtest.Fork][subtest.Index]`. -/
def StateTest.post (t : StateTest) (subtest : StateSubtest) : Except Fault stPostState :=
  goIndex (mapIndex t.json.Post subtest.Fork) subtest.Index

/-- The method `StateTest.genesis`. -/
def StateTest.genesis (t : StateTest) {Config : Type} (config : Config) : Genesis Config :=
  { Config := config
    Coinbase := t.json.Env.Coinbase
    Difficulty := t.json.Env.Difficulty
    GasLimit := t.json.Env.GasLimit
    Number := t.json.Env.Number
    Timestamp := t.json.Env.Timestamp
    Alloc := t.json.Pre }

/-- Lines 191-198 of `toMessage`: the sender, from the private key if present. -/
def stTransaction.sender (L : Lib) (tx : stTransaction) : Except GoError Address :=
  if tx.PrivateKey.length > 0 then
    match L.toECDSA tx.PrivateKey with
    | .error e => .error (.errorf ("invalid private key: " ++ e))
    | .ok key => .ok (L.pubkeyToAddress key)
  else .ok zeroAddress

/-- Lines 200-206 of `toMessage`: the recipient, if present. -/
def stTransaction.recipient (L : Lib) (tx : stTransaction) : Except GoError (Option Address) :=
  if tx.To ≠ "" then
    match L.unmarshalText tx.To with
    | .error e => .error (.errorf ("invalid to address: " ++ e))
    | .ok addr => .ok (some addr)
  else .ok none

/-- Lines 222-229 of `toMessage`: the value, zero for the literal `0x`. -/
def parseValue (L : Lib) (valueHex : String) : Except GoError Int :=
  if valueHex ≠ "0x" then
    match L.parseBig256 valueHex with
    | none => .error (.errorf ("invalid tx value " ++ L.quote valueHex))
    | some v => .ok v
  else .ok 0

/-- The method `stTransaction.toMessage`. -/
def stTransaction.toMessage (L : Lib) (tx : stTransaction) (ps : stPostState) :
    Outcome Message :=
  match tx.sender L with
  | .error e => .err e
  | .ok sender =>
  match tx.recipient L with
  | .error e => .err e
  | .ok recipient =>
  if ps.Indexes.Data > (tx.Data.length : Int) then
    .err (.errorf ("tx data index " ++ fmtInt ps.Indexes.Data ++ " out of bounds"))
  else if ps.Indexes.Value > (tx.Value.length : Int) then
    .err (.errorf ("tx value index " ++ fmtInt ps.Indexes.Value ++ " out of bounds"))
  else if ps.Indexes.Gas > (tx.GasLimit.length : Int) then
    .err (.errorf ("tx gas limit index " ++ fmtInt ps.Indexes.Gas ++ " out of bounds"))
  else
  match goIndex tx.Data ps.Indexes.Data with
  | .error f => .fault f
  | .ok dataHex =>
  match goIndex tx.Value ps.Indexes.Value with
  | .error f => .fault f
  | .ok valueHex =>
  match goIndex tx.GasLimit ps.Indexes.Gas with
  | .error f => .fault f
  | .ok gasLimit =>
  match parseValue L valueHex with
  | .error e => .err e
  | .ok value =>
  match L.hexDecodeString (trimPrefix0x dataHex) with
  | none => .err (.errorf ("invalid tx data " ++ L.quote dataHex))
  | some data =>
    .ok { From := sender, To := recipient, Nonce := tx.Nonce, Amount := value,
          GasLimit := gasLimit, GasPrice := tx.GasPrice, Data := data, CheckNonce := true }

/-- The storage loop of `MakePreState` for one account. -/
def loadStorage (L : Lib) (addr : Address) (storage : List (Hash × Hash)) (s : Store L) :
    Store L :=
  storage.foldl (fun s kv => Store.SetState L addr kv.1 kv.2 s) s

/-- The body of the account loop of `MakePreState`. -/
def loadAccount (L : Lib) (s : Store L) (entry : Address × GenesisAccount) : Store L :=
  loadStorage L entry.1 entry.2.Storage
    (Store.SetBalance L entry.1 entry.2.Balance
      (Store.SetNonce L entry.1 entry.2.Nonce
        (Store.SetCode L entry.1 entry.2.Code s)))

/-- The function `MakePreState` on a new in-memory database. -/
def MakePreState (L : Lib) (accounts : GenesisAlloc) : Store L :=
  Store.Commit L false
    (accounts.foldl (loadAccount L) (Store.SetParams L "cet" (Store.fresh L)))

/-- Line 150, `core.NewEVMContext(msg, block.Header(), nil, &t.json.Env.Coinbase)`:
the origin is the sender, the beneficiary is the given author, and the gas price
is copied with `new(big.Int).Set(msg.GasPrice())`, which dereferences it: a
transaction without gas price makes the call panic. -/
def NewEVMContext (msg : Message) (author : Address) : Except Fault EVMContext :=
  match msg.GasPrice with
  | none => .error .nilPointerDereference
  | some price => .ok { Origin := msg.From, Coinbase := author, GasPrice := price }

/-- Lines 152-170 of `RunNoVerify`: the EVM on the context, the gas pool of the
block, snapshot, apply, revert on error, commit, touch the coinbase, compute
the root. -/
def execute (L : Lib) (config : L.ChainConfig) (eips : List Int) (block : L.Block)
    (context : EVMContext) (msg : Message) (statedb : Store L) : Hash × Store L :=
  let gaspool := L.blockGasLimit block
  let snap := Store.Snapshot L statedb
  let applied := Store.ApplyMessage L config eips block context msg gaspool snap.2
  let s3 :=
    match applied.1 with
    | some _ => Store.RevertToSnapshot L snap.1 applied.2
    | none => applied.2
  let s4 := Store.Commit L (L.isEIP158 config (L.blockNumber block)) s3
  let s5 := Store.AddBalance L (L.blockCoinbase block) 0 s4
  Store.IntermediateRoot L (L.isEIP158 config (L.blockNumber block)) s5

/-- The method `StateTest.RunNoVerify`. -/
def StateTest.RunNoVerify (L : Lib) (t : StateTest) (subtest : StateSubtest) :
    Except Fault (NoVerifyOut L) :=
  match L.getChainConfig subtest.Fork with
  | none =>
    .ok { statedb := none, root := zeroHash,
          err := some (.unsupportedFork subtest.Fork), calls := [] }
  | some (config, eips) =>
    let block := L.toBlock (t.genesis config)
    let statedb := MakePreState L t.json.Pre
    match t.post subtest with
    | .error f => .error f
    | .ok post =>
    match t.json.Tx.toMessage L post with
    | .fault f => .error f
    | .err e => .ok { statedb := none, root := zeroHash, err := some e, calls := statedb.calls }
    | .ok msg =>
    match NewEVMContext msg t.json.Env.Coinbase with
    | .error f => .error f
    | .ok context =>
      let done := execute L config eips block context msg statedb
      .ok { statedb := some done.2.db, root := done.1, err := none, calls := done.2.calls }

/-- The method `StateTest.Run`. -/
def StateTest.Run (L : Lib) (t : StateTest) (subtest : StateSubtest) :
    Except Fault (RunOut L) :=
  match t.RunNoVerify L subtest with
  | .error f => .error f
  | .ok out =>
    match out.err with
    | some e => .ok { statedb := out.statedb, err := some e, calls := out.calls }
    | none =>
      match t.post subtest with
      | .error f => .error f
      | .ok post =>
        if out.root ≠ post.Root then
          .ok { statedb := out.statedb
                err := some (.errorf ("post state root mismatch: got " ++ hexString out.root ++
                  ", want " ++ hexString post.Root))
                calls := out.calls }
        else .ok { statedb := out.statedb, err := none, calls := out.calls }

/-! ## state_test_fn.go -/

/-- Lines 50-65 of `runTestFile`: the record of one subtest. -/
def record (L : Lib) (key : String) (test : StateTest) (st : StateSubtest) :
    Except Fault StatetestResult :=
  match test.Run L st with
  | .error f => .error f
  | .ok out =>
    match out.err with
    | some e =>
      .ok { Name := key, Pass := false, Fork := st.Fork, Error := e.Error L, State := none }
    | none => .ok { Name := key, Pass := true, Fork := st.Fork, Error := "", State := none }

/-- The inner loop of `runTestFile`, over the subtests of one test. -/
def runSubtests (L : Lib) (key : String) (test : StateTest) :
    List StateSubtest → List StatetestResult → Except Fault (List StatetestResult)
  | [], results => .ok results
  | st :: rest, results =>
    match record L key test st with
    | .error f => .error f
    | .ok result => runSubtests L key test rest (results ++ [result])

/-- The outer loop of `runTestFile`, over the tests of the fixture. -/
def runTests (L : Lib) :
    List (String × StateTest) → List StatetestResult → Except Fault (List StatetestResult)
  | [], results => .ok results
  | (key, test) :: rest, results =>
    match runSubtests L key test test.Subtests results with
    | .error f => .error f
    | .ok results => runTests L rest results

/-- The function `runTestFile`. -/
def runTestFile (L : Lib) (testFile : String) : Except Fault FileOut :=
  match L.readFile testFile with
  | .error e => .ok { printed := none, err := some e }
  | .ok src =>
    match L.unmarshalTests src with
    | .error e => .ok { printed := none, err := some e }
    | .ok tests =>
      match runTests L tests [] with
      | .error f => .error f
      | .ok results => .ok { printed := some results, err := none }

/-! ## A concrete library and fixtures, for evaluation -/

/-- A small library: two known forks, a journal of naturals as the store, the
journal itself as the root, and a value parser that rejects everything. -/
def demoLib : Lib where
  Key := List Nat
  ChainConfig := Bool
  Block := Genesis Bool
  StateDB := List Nat
  toECDSA := fun bs => if bs.length = 32 then .ok bs else .error "invalid length"
  pubkeyToAddress := fun key => key.take 20
  unmarshalText := fun s =>
    if s.length = 42 then .ok ((s.toList.drop 2).map Char.toNat) else .error "bad length"
  parseBig256 := fun _ => none
  hexDecodeString := fun s => if s = "" then some [] else none
  quote := fun s => "<" ++ s ++ ">"
  getChainConfig := fun fork =>
    if fork = "Istanbul" then some (true, [])
    else if fork = "Frontier" then some (false, []) else none
  isEIP158 := fun config _ => config
  toBlock := fun g => g
  blockGasLimit := fun b => b.GasLimit
  blockNumber := fun b => b.Number
  blockCoinbase := fun b => b.Coinbase
  newStateDB := []
  setParams := fun _ s => s ++ [1]
  setCode := fun _ _ s => s ++ [2]
  setNonce := fun _ _ s => s ++ [3]
  setBalance := fun _ _ s => s ++ [4]
  setState := fun _ _ _ s => s ++ [5]
  commit := fun b s => s ++ [if b then 7 else 6]
  snapshot := fun s => ((s.length : Int), s)
  applyMessage := fun _ _ _ _ msg _ s =>
    if msg.GasLimit = 0 then (some "intrinsic gas too low", s ++ [9]) else (none, s ++ [8])
  revertToSnapshot := fun id s => s.take id.toNat
  addBalance := fun _ _ s => s ++ [10]
  intermediateRoot := fun b s => (s ++ [if b then 12 else 11], s ++ [if b then 12 else 11])
  logsHash := fun _ => [0]
  readFile := fun _ => .error "no such file"
  unmarshalTests := fun _ => .error "unexpected end of JSON input"

/-- Environment of the sample fixtures. -/
def demoEnv : stEnv :=
  { Coinbase := [1], Difficulty := some 1, GasLimit := 1000, Number := 1, Timestamp := 1 }

/-- A transaction template with one candidate in each array, no private key and
no recipient. -/
def demoTx : stTransaction :=
  { GasPrice := some 1, Nonce := 0, To := "", Data := ["0x"], GasLimit := [21000],
    Value := ["0x"], PrivateKey := [] }

/-- A post-state entry selecting the given index triple. -/
def demoPost (root : Hash) (data gas value : Int) : stPostState :=
  { Root := root, Logs := [], Indexes := { Data := data, Gas := gas, Value := value } }

/-- A test over `demoTx` with the given post-state mapping. -/
def demoTest (post : List (String × List stPostState)) : StateTest :=
  { json := { Env := demoEnv, Pre := [], Tx := demoTx, Out := [], Post := post } }

/-- A transaction template whose only gas limit is zero, which the engine of
`demoLib` refuses. -/
def refusedTx : stTransaction :=
  { demoTx with GasLimit := [0] }

/-- A test over `refusedTx` with the given post-state mapping. -/
def refusedTest (post : List (String × List stPostState)) : StateTest :=
  { json := { Env := demoEnv, Pre := [], Tx := refusedTx, Out := [], Post := post } }

/-- The library `demoLib` reading the given fixture from any file. -/
def fileLib (tests : List (String × StateTest)) : Lib :=
  { demoLib with
    readFile := fun _ => .ok []
    unmarshalTests := fun _ => .ok tests }

/-- The message built from `refusedTx` at the index triple (0, 0, 0). -/
def refusedMsg : Message :=
  { From := zeroAddress, To := none, Nonce := 0, Amount := 0, GasLimit := 0,
    GasPrice := some 1, Data := [], CheckNonce := true }

/-- A fixture with two post-state entries under Istanbul; the second selects
data index 1 while the data array has length 1. -/
def countFixture : List (String × StateTest) :=
  [("t", demoTest [("Istanbul", [demoPost [1, 6, 8, 7, 10, 12] 0 0 0, demoPost [] 1 0 0])])]

/-- A fixture of two tests: the first selects value index 1 while the value
array has length 1, the second names an unknown fork. -/
def abortFixture : List (String × StateTest) :=
  [("a", demoTest [("Istanbul", [demoPost [] 0 0 1])]),
    ("b", demoTest [("Quux", [demoPost [] 0 0 0])])]

/-- A transaction template without gas price (the field is absent or null in the
fixture). -/
def noPriceTx : stTransaction :=
  { demoTx with GasPrice := none }

/-- A test over `noPriceTx` with the given post-state mapping. -/
def noPriceTest (post : List (String × List stPostState)) : StateTest :=
  { json := { Env := demoEnv, Pre := [], Tx := noPriceTx, Out := [], Post := post } }

/-- The message built from `noPriceTx` at the index triple (0, 0, 0). -/
def noPriceMsg : Message :=
  { From := zeroAddress, To := none, Nonce := 0, Amount := 0, GasLimit := 21000,
    GasPrice := none, Data := [], CheckNonce := true }

/-- The context of `refusedMsg` under `demoEnv`. -/
def refusedContext : EVMContext :=
  { Origin := zeroAddress, Coinbase := [1], GasPrice := 1 }

/-- The library `demoLib` with a root of 32 bytes: the journal, padded with
zeros. -/
def hashLib : Lib :=
  { demoLib with
    intermediateRoot := fun (b : Bool) (s : List Nat) =>
      (((s ++ [if b then 12 else 11] ++ List.replicate 32 0).take 32 : List Nat),
        (s ++ [if b then 12 else 11] : List Nat)) }

/-- The hash of 32 bytes 0xff. -/
def onesHash : Hash := List.replicate 32 255

/-- The root `hashLib` computes for `demoTx` under Istanbul. -/
def journalHash : Hash := [1, 6, 8, 7, 10, 12] ++ List.replicate 26 0

/-- A fixture with two post-state entries under Istanbul: the first passes, the
second selects gas index 5 while the gas-limit array has length 1. -/
def gasFixture : List (String × StateTest) :=
  [("t", demoTest [("Istanbul", [demoPost [1, 6, 8, 7, 10, 12] 0 0 0, demoPost [] 0 5 0])])]

/-- A fixture with two post-state entries under Istanbul: the first selects data
index 1 while the data array has length 1, the second gas index 5 while the
gas-limit array has length 1. -/
def panicFixture : List (String × StateTest) :=
  [("t", demoTest [("Istanbul", [demoPost [] 1 0 0, demoPost [] 0 5 0])])]

/-- The run of no subtest of the fixture panics: every record is produced. -/
def noPanic (L : Lib) (tests : List (String × StateTest)) : Bool :=
  tests.all fun kt => kt.2.Subtests.all fun st =>
    match record L kt.1 kt.2 st with
    | .ok _ => true
    | .error _ => false

/-! ## Descriptions used in the statements -/

/-- The calls `MakePreState` makes for one account. -/
def accountCalls (entry : Address × GenesisAccount) : List Call :=
  [Call.setCode entry.1 entry.2.Code, Call.setNonce entry.1 entry.2.Nonce,
    Call.setBalance entry.1 entry.2.Balance] ++
  entry.2.Storage.map fun kv => Call.setState entry.1 kv.1 kv.2

/-- The calls `MakePreState` makes. -/
def preStateCalls (accounts : GenesisAlloc) : List Call :=
  [Call.newStateDB, Call.setParams "cet"] ++ accounts.flatMap accountCalls ++
    [Call.commit false]

/-- The number of post-state entries of a fixture: over all tests and all forks,
the length of the fork's list. -/
def postCount (tests : List (String × StateTest)) : Nat :=
  (tests.map fun kt => (kt.2.json.Post.map fun p => p.2.length).sum).sum


/-! ## Indexing lemmas -/

theorem goIndex_out_of_range {α : Type} (xs : List α) (i : Int)
    (h : i < 0 ∨ (xs.length : Int) ≤ i) :
    goIndex xs i = .error (.indexOutOfRange i xs.length) := by
  unfold goIndex
  by_cases hneg : i < 0
  · simp [hneg]
  · have hlen : xs.length ≤ i.toNat := by omega
    simp [hneg, List.getElem?_eq_none hlen]

theorem goIndex_in_range {α : Type} (xs : List α) (i : Int)
    (h0 : 0 ≤ i) (h1 : i < (xs.length : Int)) :
    ∃ x, goIndex xs i = .ok x ∧ xs[i.toNat]? = some x := by
  have hlt : i.toNat < xs.length := by omega
  refine ⟨xs[i.toNat], ?_, ?_⟩
  · unfold goIndex
    have hneg : ¬ i < 0 := by omega
    simp [hneg, List.getElem?_eq_getElem hlt]
  · simp [List.getElem?_eq_getElem hlt]

theorem goIndex_ok_bounds {α : Type} (xs : List α) (i : Int) (x : α)
    (h : goIndex xs i = .ok x) : 0 ≤ i ∧ i < (xs.length : Int) := by
  by_contra hc
  have hr : i < 0 ∨ (xs.length : Int) ≤ i := by omega
  rw [goIndex_out_of_range xs i hr] at h
  cases h

/-- With a usable sender and recipient and no index beyond its array's
length, an index outside its array makes `toMessage` panic. -/
theorem toMessage_fault (L : Lib) (tx : stTransaction) (ps : stPostState)
    (hs : ∃ a, tx.sender L = .ok a) (hr : ∃ r, tx.recipient L = .ok r)
    (hd : ps.Indexes.Data ≤ (tx.Data.length : Int))
    (hv : ps.Indexes.Value ≤ (tx.Value.length : Int))
    (hg : ps.Indexes.Gas ≤ (tx.GasLimit.length : Int))
    (hout : (ps.Indexes.Data < 0 ∨ (tx.Data.length : Int) ≤ ps.Indexes.Data) ∨
      (ps.Indexes.Value < 0 ∨ (tx.Value.length : Int) ≤ ps.Indexes.Value) ∨
      (ps.Indexes.Gas < 0 ∨ (tx.GasLimit.length : Int) ≤ ps.Indexes.Gas)) :
    ∃ f, tx.toMessage L ps = .fault f := by
  obtain ⟨a, ha⟩ := hs
  obtain ⟨r, hr⟩ := hr
  have hd' : ¬ ps.Indexes.Data > (tx.Data.length : Int) := by omega
  have hv' : ¬ ps.Indexes.Value > (tx.Value.length : Int) := by omega
  have hg' : ¬ ps.Indexes.Gas > (tx.GasLimit.length : Int) := by omega
  unfold stTransaction.toMessage
  simp only [ha, hr, hd', hv', hg', if_false]
  by_cases cd : ps.Indexes.Data < 0 ∨ (tx.Data.length : Int) ≤ ps.Indexes.Data
  · rw [goIndex_out_of_range _ _ cd]
    exact ⟨_, rfl⟩
  · obtain ⟨x, hx, _⟩ := goIndex_in_range tx.Data ps.Indexes.Data (by omega) (by omega)
    rw [hx]
    by_cases cv : ps.Indexes.Value < 0 ∨ (tx.Value.length : Int) ≤ ps.Indexes.Value
    · rw [goIndex_out_of_range _ _ cv]
      exact ⟨_, rfl⟩
    · obtain ⟨y, hy, _⟩ := goIndex_in_range tx.Value ps.Indexes.Value (by omega) (by omega)
      rw [hy]
      have cg : ps.Indexes.Gas < 0 ∨ (tx.GasLimit.length : Int) ≤ ps.Indexes.Gas := by
        rcases hout with h | h | h
        · exact absurd h cd
        · exact absurd h cv
        · exact h
      rw [goIndex_out_of_range _ _ cg]
      exact ⟨_, rfl⟩

/-- With a usable sender and recipient, an index strictly beyond the length of
its array makes `toMessage` return one of the three out-of-bounds errors. -/
theorem toMessage_index_beyond_length (L : Lib) (tx : stTransaction) (ps : stPostState)
    (hs : ∃ a, tx.sender L = .ok a) (hr : ∃ r, tx.recipient L = .ok r)
    (h : ps.Indexes.Data > (tx.Data.length : Int) ∨
      ps.Indexes.Value > (tx.Value.length : Int) ∨
      ps.Indexes.Gas > (tx.GasLimit.length : Int)) :
    tx.toMessage L ps =
        .err (.errorf ("tx data index " ++ fmtInt ps.Indexes.Data ++ " out of bounds")) ∨
      tx.toMessage L ps =
        .err (.errorf ("tx value index " ++ fmtInt ps.Indexes.Value ++ " out of bounds")) ∨
      tx.toMessage L ps =
        .err (.errorf ("tx gas limit index " ++ fmtInt ps.Indexes.Gas ++ " out of bounds")) := by
  obtain ⟨a, ha⟩ := hs
  obtain ⟨r, hr⟩ := hr
  unfold stTransaction.toMessage
  simp only [ha, hr]
  by_cases cd : ps.Indexes.Data > (tx.Data.length : Int)
  · exact Or.inl (by simp only [cd, if_true])
  · by_cases cv : ps.Indexes.Value > (tx.Value.length : Int)
    · exact Or.inr (Or.inl (by simp only [cd, cv, if_true, if_false]))
    · have cg : ps.Indexes.Gas > (tx.GasLimit.length : Int) := by
        rcases h with h | h | h
        · exact absurd h cd
        · exact absurd h cv
        · exact h
      exact Or.inr (Or.inr (by simp only [cd, cv, cg, if_true, if_false]))

/-! ## Propagation of a panic through the harness -/

theorem RunNoVerify_fault (L : Lib) (t : StateTest) (st : StateSubtest)
    (cfg : L.ChainConfig × List Int) (ps : stPostState) (f : Fault)
    (hfork : L.getChainConfig st.Fork = some cfg) (hpost : t.post st = .ok ps)
    (hmsg : t.json.Tx.toMessage L ps = .fault f) :
    t.RunNoVerify L st = .error f := by
  obtain ⟨config, eips⟩ := cfg
  unfold StateTest.RunNoVerify
  simp only [hfork, hpost, hmsg]

theorem Run_fault (L : Lib) (t : StateTest) (st : StateSubtest) (f : Fault)
    (h : t.RunNoVerify L st = .error f) : t.Run L st = .error f := by
  unfold StateTest.Run
  simp only [h]

theorem record_fault (L : Lib) (key : String) (t : StateTest) (st : StateSubtest) (f : Fault)
    (h : t.Run L st = .error f) : record L key t st = .error f := by
  unfold record
  simp only [h]

theorem runSubtests_fault (L : Lib) (key : String) (test : StateTest) :
    ∀ (sts : List StateSubtest) (results : List StatetestResult),
      (∃ st ∈ sts, ∃ f, record L key test st = .error f) →
      ∃ f, runSubtests L key test sts results = .error f := by
  intro sts
  induction sts with
  | nil =>
    intro results h
    obtain ⟨st, hst, _⟩ := h
    cases hst
  | cons st rest ih =>
    intro results h
    unfold runSubtests
    cases hrec : record L key test st with
    | error f => exact ⟨f, rfl⟩
    | ok result =>
      simp only []
      apply ih
      obtain ⟨st', hmem, f, hf⟩ := h
      rcases List.mem_cons.mp hmem with heq | hin
      · subst heq
        rw [hrec] at hf
        cases hf
      · exact ⟨st', hin, f, hf⟩

theorem runTests_fault (L : Lib) :
    ∀ (tests : List (String × StateTest)) (results : List StatetestResult),
      (∃ kt ∈ tests, ∃ st ∈ kt.2.Subtests, ∃ f, record L kt.1 kt.2 st = .error f) →
      ∃ f, runTests L tests results = .error f := by
  intro tests
  induction tests with
  | nil =>
    intro results h
    obtain ⟨kt, hkt, _⟩ := h
    cases hkt
  | cons head rest ih =>
    intro results h
    obtain ⟨key, test⟩ := head
    unfold runTests
    cases hsub : runSubtests L key test test.Subtests results with
    | error f => exact ⟨f, rfl⟩
    | ok results' =>
      simp only []
      apply ih
      obtain ⟨kt, hmem, st, hst, f, hf⟩ := h
      rcases List.mem_cons.mp hmem with heq | hin
      · subst heq
        obtain ⟨g, hg⟩ := runSubtests_fault L key test test.Subtests results ⟨st, hst, f, hf⟩
        rw [hsub] at hg
        cases hg
      · exact ⟨kt, hin, st, hst, f, hf⟩

theorem runTestFile_fault (L : Lib) (testFile : String) (src : List Nat)
    (tests : List (String × StateTest))
    (hread : L.readFile testFile = .ok src) (hparse : L.unmarshalTests src = .ok tests)
    (h : ∃ kt ∈ tests, ∃ st ∈ kt.2.Subtests, ∃ f, record L kt.1 kt.2 st = .error f) :
    ∃ f, runTestFile L testFile = .error f := by
  obtain ⟨f, hf⟩ := runTests_fault L tests [] h
  refine ⟨f, ?_⟩
  unfold runTestFile
  simp only [hread, hparse, hf]

/-! ## The calls of the pre-state loader -/

theorem loadStorage_calls (L : Lib) (addr : Address) :
    ∀ (storage : List (Hash × Hash)) (s : Store L),
      (loadStorage L addr storage s).calls =
        s.calls ++ storage.map fun kv => Call.setState addr kv.1 kv.2 := by
  intro storage
  induction storage with
  | nil => intro s; simp [loadStorage]
  | cons kv rest ih =>
    intro s
    have h := ih (Store.SetState L addr kv.1 kv.2 s)
    simp only [loadStorage, List.foldl_cons] at h ⊢
    rw [h]
    simp [Store.SetState]

theorem loadAccount_calls (L : Lib) (s : Store L) (entry : Address × GenesisAccount) :
    (loadAccount L s entry).calls = s.calls ++ accountCalls entry := by
  unfold loadAccount
  rw [loadStorage_calls]
  simp [Store.SetBalance, Store.SetNonce, Store.SetCode, accountCalls]

theorem foldl_loadAccount_calls (L : Lib) :
    ∀ (accounts : GenesisAlloc) (s : Store L),
      (accounts.foldl (loadAccount L) s).calls = s.calls ++ accounts.flatMap accountCalls := by
  intro accounts
  induction accounts with
  | nil => intro s; simp
  | cons entry rest ih =>
    intro s
    simp only [List.foldl_cons, List.flatMap_cons]
    rw [ih, loadAccount_calls]
    simp

theorem MakePreState_calls (L : Lib) (accounts : GenesisAlloc) :
    (MakePreState L accounts).calls = preStateCalls accounts := by
  unfold MakePreState
  simp [Store.Commit, foldl_loadAccount_calls, Store.SetParams, Store.fresh, preStateCalls]

theorem preStateCalls_no_applyMessage (accounts : GenesisAlloc) (msg : Message) (gas : Nat) :
    Call.applyMessage msg gas ∉ preStateCalls accounts := by
  unfold preStateCalls
  simp [accountCalls, List.mem_flatMap]

/-! ## The loops of `runTestFile` when no subtest panics -/

theorem noPanic_record (L : Lib) (tests : List (String × StateTest))
    (h : noPanic L tests = true) :
    ∀ kt ∈ tests, ∀ st ∈ kt.2.Subtests, ∃ r, record L kt.1 kt.2 st = .ok r := by
  intro kt hkt st hst
  unfold noPanic at h
  rw [List.all_eq_true] at h
  have h1 := h kt hkt
  rw [List.all_eq_true] at h1
  have h2 := h1 st hst
  cases hrec : record L kt.1 kt.2 st with
  | ok r => exact ⟨r, rfl⟩
  | error f =>
    rw [hrec] at h2
    cases h2

theorem runSubtests_returns (L : Lib) (key : String) (test : StateTest) :
    ∀ (sts : List StateSubtest) (results : List StatetestResult),
      (∀ st ∈ sts, ∃ r, record L key test st = .ok r) →
      ∃ recs, runSubtests L key test sts results = .ok (results ++ recs) ∧
        recs.length = sts.length ∧
        ∀ st ∈ sts, ∀ r, record L key test st = .ok r → r ∈ recs := by
  intro sts
  induction sts with
  | nil =>
    intro results _
    refine ⟨[], ?_, rfl, ?_⟩
    · unfold runSubtests
      simp
    · intro st hst
      cases hst
  | cons st rest ih =>
    intro results h
    obtain ⟨r, hr⟩ := h st (List.mem_cons_self _ _)
    obtain ⟨recs, hrun, hlen, hmem⟩ :=
      ih (results ++ [r]) (fun st' hst' => h st' (List.mem_cons_of_mem _ hst'))
    refine ⟨r :: recs, ?_, ?_, ?_⟩
    · unfold runSubtests
      simp only [hr, hrun, List.append_assoc, List.singleton_append]
    · simp [hlen]
    · intro st' hst' r' hr'
      rcases List.mem_cons.mp hst' with heq | hin
      · subst heq
        rw [hr] at hr'
        cases hr'
        exact List.mem_cons_self _ _
      · exact List.mem_cons_of_mem _ (hmem st' hin r' hr')

theorem runTests_returns (L : Lib) :
    ∀ (tests : List (String × StateTest)) (results : List StatetestResult),
      (∀ kt ∈ tests, ∀ st ∈ kt.2.Subtests, ∃ r, record L kt.1 kt.2 st = .ok r) →
      ∃ recs, runTests L tests results = .ok (results ++ recs) ∧
        recs.length = (tests.map fun kt => kt.2.Subtests.length).sum ∧
        ∀ kt ∈ tests, ∀ st ∈ kt.2.Subtests, ∀ r, record L kt.1 kt.2 st = .ok r → r ∈ recs := by
  intro tests
  induction tests with
  | nil =>
    intro results _
    refine ⟨[], ?_, rfl, ?_⟩
    · unfold runTests
      simp
    · intro kt hkt
      cases hkt
  | cons head rest ih =>
    intro results h
    obtain ⟨key, test⟩ := head
    obtain ⟨recs1, hrun1, hlen1, hmem1⟩ :=
      runSubtests_returns L key test test.Subtests results
        (fun st hst => h (key, test) (List.mem_cons_self _ _) st hst)
    obtain ⟨recs2, hrun2, hlen2, hmem2⟩ :=
      ih (results ++ recs1) (fun kt hkt => h kt (List.mem_cons_of_mem _ hkt))
    refine ⟨recs1 ++ recs2, ?_, ?_, ?_⟩
    · unfold runTests
      simp only [hrun1, hrun2, List.append_assoc]
    · simp [hlen1, hlen2]
    · intro kt hkt st hst r hr
      rcases List.mem_cons.mp hkt with heq | hin
      · subst heq
        exact List.mem_append_left _ (hmem1 st hst r hr)
      · exact List.mem_append_right _ (hmem2 kt hin st hst r hr)

/-! ## Message builder: the bounds guard (C1, C2, C3) -/

/-- C1, evaluated on the code: with a usable sender and recipient and every
index at most the length of its array, an index exactly equal to the length of
its array passes the guard `index > len` and `toMessage` panics on the slice
access; it returns no out-of-bounds error. -/
theorem toMessage_index_equal_length_faults (L : Lib) (tx : stTransaction) (ps : stPostState)
    (hs : ∃ a, tx.sender L = .ok a) (hr : ∃ r, tx.recipient L = .ok r)
    (hd : ps.Indexes.Data ≤ (tx.Data.length : Int))
    (hv : ps.Indexes.Value ≤ (tx.Value.length : Int))
    (hg : ps.Indexes.Gas ≤ (tx.GasLimit.length : Int))
    (heq : ps.Indexes.Data = (tx.Data.length : Int) ∨
      ps.Indexes.Value = (tx.Value.length : Int) ∨
      ps.Indexes.Gas = (tx.GasLimit.length : Int)) :
    (∃ f, tx.toMessage L ps = .fault f) ∧ ∀ e, tx.toMessage L ps ≠ .err e := by
  have hf : ∃ f, tx.toMessage L ps = .fault f := by
    apply toMessage_fault L tx ps hs hr hd hv hg
    rcases heq with h | h | h
    · exact Or.inl (Or.inr (by omega))
    · exact Or.inr (Or.inl (Or.inr (by omega)))
    · exact Or.inr (Or.inr (Or.inr (by omega)))
  obtain ⟨f, hf⟩ := hf
  refine ⟨⟨f, hf⟩, ?_⟩
  intro e he
  rw [hf] at he
  cases he

/-- Witness of C1: the data index 1 on a data array of length 1. -/
theorem toMessage_index_equal_length_faults_witness :
    (demoPost [] 1 0 0).Indexes.Data = (demoTx.Data.length : Int) ∧
    ((∃ f, demoTx.toMessage demoLib (demoPost [] 1 0 0) = .fault f) ∧
      ∀ e, demoTx.toMessage demoLib (demoPost [] 1 0 0) ≠ .err e) :=
  ⟨by decide,
    toMessage_index_equal_length_faults demoLib demoTx (demoPost [] 1 0 0)
      ⟨zeroAddress, by rfl⟩ ⟨none, by rfl⟩ (by decide) (by decide) (by decide)
      (Or.inl (by decide))⟩

/-- C2, evaluated on the code: for a subtest with a recognised fork, an existing
post-state entry, a usable sender and recipient and no index beyond the length
of its array, a negative index is not caught by the guard and the run panics on
the slice access: `Run` returns no error value at all. -/
theorem Run_negative_index_faults (L : Lib) (t : StateTest) (st : StateSubtest)
    (cfg : L.ChainConfig × List Int) (ps : stPostState)
    (hfork : L.getChainConfig st.Fork = some cfg) (hpost : t.post st = .ok ps)
    (hs : ∃ a, t.json.Tx.sender L = .ok a) (hr : ∃ r, t.json.Tx.recipient L = .ok r)
    (hd : ps.Indexes.Data ≤ (t.json.Tx.Data.length : Int))
    (hv : ps.Indexes.Value ≤ (t.json.Tx.Value.length : Int))
    (hg : ps.Indexes.Gas ≤ (t.json.Tx.GasLimit.length : Int))
    (hneg : ps.Indexes.Data < 0 ∨ ps.Indexes.Value < 0 ∨ ps.Indexes.Gas < 0) :
    ∃ f, t.json.Tx.toMessage L ps = .fault f ∧ t.Run L st = .error f := by
  have hf : ∃ f, t.json.Tx.toMessage L ps = .fault f := by
    apply toMessage_fault L t.json.Tx ps hs hr hd hv hg
    rcases hneg with h | h | h
    · exact Or.inl (Or.inl h)
    · exact Or.inr (Or.inl (Or.inl h))
    · exact Or.inr (Or.inr (Or.inl h))
  obtain ⟨f, hf⟩ := hf
  exact ⟨f, hf, Run_fault L t st f (RunNoVerify_fault L t st cfg ps f hfork hpost hf)⟩

/-- Witness of C2: the value index -1 under the fork Istanbul. -/
theorem Run_negative_index_faults_witness :
    (demoPost [] 0 0 (-1)).Indexes.Value < 0 ∧
    ∃ f, demoTx.toMessage demoLib (demoPost [] 0 0 (-1)) = .fault f ∧
      (demoTest [("Istanbul", [demoPost [] 0 0 (-1)])]).Run demoLib ⟨"Istanbul", 0⟩ =
        .error f :=
  ⟨by decide,
    Run_negative_index_faults demoLib (demoTest [("Istanbul", [demoPost [] 0 0 (-1)])])
      ⟨"Istanbul", 0⟩ (true, []) (demoPost [] 0 0 (-1)) (by rfl) (by rfl)
      ⟨zeroAddress, by rfl⟩ ⟨none, by rfl⟩ (by decide) (by decide) (by decide)
      (Or.inr (Or.inl (by decide)))⟩

/-- C3 as stated fails, in two ways. With the gas index beyond the gas-limit
array and a valid fork, private key and recipient, a data index that is also
beyond its array makes `RunNoVerify` return the data-index error, not the
gas-limit one. And in `panicFixture` the second subtest has gas index 5 on a
gas-limit array of length 1 with data and value indexes in bounds, yet
`runTestFile` records nothing for it: the run panics on the first subtest. -/
theorem RunNoVerify_gas_index_counterexample :
    ((demoPost [] 5 5 0).Indexes.Gas > (demoTx.GasLimit.length : Int) ∧
      demoLib.getChainConfig "Istanbul" = some (true, []) ∧
      demoTx.sender demoLib = .ok zeroAddress ∧
      demoTx.recipient demoLib = .ok none ∧
      ∃ out, (demoTest [("Istanbul", [demoPost [] 5 5 0])]).RunNoVerify demoLib
          ⟨"Istanbul", 0⟩ = .ok out ∧
        out.err = some (.errorf "tx data index 5 out of bounds") ∧
        out.err ≠ some (.errorf "tx gas limit index 5 out of bounds")) ∧
    ((demoPost [] 0 5 0).Indexes.Gas > (demoTx.GasLimit.length : Int) ∧
      (demoTest [("Istanbul", [demoPost [] 1 0 0, demoPost [] 0 5 0])]).post ⟨"Istanbul", 1⟩ =
        .ok (demoPost [] 0 5 0) ∧
      (⟨"Istanbul", 1⟩ : StateSubtest) ∈
        (demoTest [("Istanbul", [demoPost [] 1 0 0, demoPost [] 0 5 0])]).Subtests ∧
      runTestFile (fileLib panicFixture) "fixture.json" = .error (.indexOutOfRange 1 1)) :=
  ⟨⟨by decide, by rfl, by rfl, by rfl, _, rfl, by decide, by decide⟩,
    ⟨by decide, by rfl, by decide, by rfl⟩⟩

/-- C3, amended: for a subtest with a recognised fork, a usable private key and
recipient, data and value indexes not beyond the lengths of their arrays and a
gas index strictly beyond the length of the gas-limit array, `RunNoVerify`
returns the error "tx gas limit index i out of bounds" with a nil store and the
zero root, having made only the calls of the pre-state load (none of them the
engine's message application); the record of that subtest has the name of its
test, its fork, pass = false and that message; and on every fixture that holds
the subtest and in which the run of no subtest panics, `runTestFile` returns
nil and prints a report that contains that record. -/
theorem RunNoVerify_gas_index_beyond_length (L : Lib) (t : StateTest) (st : StateSubtest)
    (cfg : L.ChainConfig × List Int) (ps : stPostState)
    (hfork : L.getChainConfig st.Fork = some cfg) (hpost : t.post st = .ok ps)
    (hs : ∃ a, t.json.Tx.sender L = .ok a) (hr : ∃ r, t.json.Tx.recipient L = .ok r)
    (hd : ps.Indexes.Data ≤ (t.json.Tx.Data.length : Int))
    (hv : ps.Indexes.Value ≤ (t.json.Tx.Value.length : Int))
    (hg : ps.Indexes.Gas > (t.json.Tx.GasLimit.length : Int)) :
    t.RunNoVerify L st = .ok
      { statedb := none, root := zeroHash
        err := some (.errorf ("tx gas limit index " ++ fmtInt ps.Indexes.Gas ++ " out of bounds"))
        calls := preStateCalls t.json.Pre } ∧
    (∀ msg gas, Call.applyMessage msg gas ∉ preStateCalls t.json.Pre) ∧
    (∀ key : String, record L key t st = .ok
      { Name := key, Pass := false, Fork := st.Fork
        Error := "tx gas limit index " ++ fmtInt ps.Indexes.Gas ++ " out of bounds"
        State := none }) ∧
    (∀ (testFile : String) (src : List Nat) (tests : List (String × StateTest)) (key : String),
      L.readFile testFile = .ok src → L.unmarshalTests src = .ok tests →
      (key, t) ∈ tests → st ∈ t.Subtests → noPanic L tests = true →
      ∃ results, runTestFile L testFile = .ok { printed := some results, err := none } ∧
        ({ Name := key, Pass := false, Fork := st.Fork
           Error := "tx gas limit index " ++ fmtInt ps.Indexes.Gas ++ " out of bounds"
           State := none } : StatetestResult) ∈ results) := by
  obtain ⟨a, ha⟩ := hs
  obtain ⟨r, hr⟩ := hr
  obtain ⟨config, eips⟩ := cfg
  have hd' : ¬ ps.Indexes.Data > (t.json.Tx.Data.length : Int) := by omega
  have hv' : ¬ ps.Indexes.Value > (t.json.Tx.Value.length : Int) := by omega
  have hmsg : t.json.Tx.toMessage L ps = .err
      (.errorf ("tx gas limit index " ++ fmtInt ps.Indexes.Gas ++ " out of bounds")) := by
    unfold stTransaction.toMessage
    simp only [ha, hr, hd', hv', hg, if_false, if_true]
  have hrun : t.RunNoVerify L st = .ok
      { statedb := none, root := zeroHash
        err := some (.errorf ("tx gas limit index " ++ fmtInt ps.Indexes.Gas ++ " out of bounds"))
        calls := preStateCalls t.json.Pre } := by
    unfold StateTest.RunNoVerify
    simp only [hfork, hpost, hmsg, MakePreState_calls]
  have hrec : ∀ key : String, record L key t st = .ok
      { Name := key, Pass := false, Fork := st.Fork
        Error := "tx gas limit index " ++ fmtInt ps.Indexes.Gas ++ " out of bounds"
        State := none } := by
    intro key
    unfold record StateTest.Run
    simp only [hrun, GoError.Error]
  refine ⟨hrun, fun msg gas => preStateCalls_no_applyMessage _ msg gas, hrec, ?_⟩
  intro testFile src tests key hread hparse hmem hst hno
  obtain ⟨recs, hall, _, hin⟩ := runTests_returns L tests [] (noPanic_record L tests hno)
  refine ⟨recs, ?_, hin (key, t) hmem st hst _ (hrec key)⟩
  unfold runTestFile
  simp only [hread, hparse, hall, List.nil_append]

/-- Witness of C3 amended: in `gasFixture` the second subtest has gas index 5
on a gas-limit array of length 1; the report holds the record of the first
subtest, which passes, and the failed record of the second. -/
theorem RunNoVerify_gas_index_beyond_length_witness :
    (demoPost [] 0 5 0).Indexes.Gas > (demoTx.GasLimit.length : Int) ∧
    noPanic (fileLib gasFixture) gasFixture = true ∧
    runTestFile (fileLib gasFixture) "fixture.json" = .ok
      { printed := some
          [{ Name := "t", Pass := true, Fork := "Istanbul", Error := "", State := none },
            { Name := "t", Pass := false, Fork := "Istanbul"
              Error := "tx gas limit index 5 out of bounds", State := none }]
        err := none } ∧
    ((demoTest [("Istanbul", [demoPost [1, 6, 8, 7, 10, 12] 0 0 0, demoPost [] 0 5 0])]).RunNoVerify
        (fileLib gasFixture) ⟨"Istanbul", 1⟩ = .ok
      { statedb := none, root := zeroHash
        err := some (.errorf "tx gas limit index 5 out of bounds")
        calls := [Call.newStateDB, Call.setParams "cet", Call.commit false] } ∧
    (∀ msg gas, Call.applyMessage msg gas ∉
      [Call.newStateDB, Call.setParams "cet", Call.commit false]) ∧
    (∀ key : String,
      record (fileLib gasFixture) key
        (demoTest [("Istanbul", [demoPost [1, 6, 8, 7, 10, 12] 0 0 0, demoPost [] 0 5 0])])
        ⟨"Istanbul", 1⟩ = .ok
        { Name := key, Pass := false, Fork := "Istanbul"
          Error := "tx gas limit index 5 out of bounds", State := none }) ∧
    (∀ (testFile : String) (src : List Nat) (tests : List (String × StateTest)) (key : String),
      (fileLib gasFixture).readFile testFile = .ok src →
      (fileLib gasFixture).unmarshalTests src = .ok tests →
      (key, demoTest [("Istanbul", [demoPost [1, 6, 8, 7, 10, 12] 0 0 0, demoPost [] 0 5 0])]) ∈
        tests →
      (⟨"Istanbul", 1⟩ : StateSubtest) ∈
        (demoTest [("Istanbul",
          [demoPost [1, 6, 8, 7, 10, 12] 0 0 0, demoPost [] 0 5 0])]).Subtests →
      noPanic (fileLib gasFixture) tests = true →
      ∃ results, runTestFile (fileLib gasFixture) testFile =
          .ok { printed := some results, err := none } ∧
        ({ Name := key, Pass := false, Fork := "Istanbul"
           Error := "tx gas limit index 5 out of bounds"
           State := none } : StatetestResult) ∈ results)) :=
  ⟨by decide, by rfl, by rfl,
    RunNoVerify_gas_index_beyond_length (fileLib gasFixture)
      (demoTest [("Istanbul", [demoPost [1, 6, 8, 7, 10, 12] 0 0 0, demoPost [] 0 5 0])])
      ⟨"Istanbul", 1⟩ (true, []) (demoPost [] 0 5 0) (by rfl) (by rfl)
      ⟨zeroAddress, by rfl⟩ ⟨none, by rfl⟩ (by decide) (by decide) (by decide)⟩

/-! ## Message builder: the zero-value literal (C4) -/

/-- The sender does not depend on the value parser. -/
theorem sender_any_value_parsing (L : Lib) (tx : stTransaction) (parser : String → Option Int) :
    tx.sender { L with parseBig256 := parser } = tx.sender L := by
  unfold stTransaction.sender
  cases h : L.toECDSA tx.PrivateKey <;> simp only [h]

/-- The recipient does not depend on the value parser. -/
theorem recipient_any_value_parsing (L : Lib) (tx : stTransaction) (parser : String → Option Int) :
    tx.recipient { L with parseBig256 := parser } = tx.recipient L := by
  unfold stTransaction.recipient
  cases h : L.unmarshalText tx.To <;> simp only [h]

/-- C4: with a usable sender and recipient, in-bounds indexes and decodable
data, when the selected value string is exactly "0x" the message is built with
amount zero; this holds for every value parser, so the parser is not consulted
and replacing it changes nothing. -/
theorem toMessage_zero_value_literal (L : Lib) (tx : stTransaction) (ps : stPostState)
    (sender : Address) (recipient : Option Address) (dataHex : String) (gasLimit : Nat)
    (data : List Nat)
    (hs : tx.sender L = .ok sender) (hr : tx.recipient L = .ok recipient)
    (hd : goIndex tx.Data ps.Indexes.Data = .ok dataHex)
    (hv : goIndex tx.Value ps.Indexes.Value = .ok "0x")
    (hg : goIndex tx.GasLimit ps.Indexes.Gas = .ok gasLimit)
    (hdata : L.hexDecodeString (trimPrefix0x dataHex) = some data) :
    tx.toMessage L ps = .ok
        { From := sender, To := recipient, Nonce := tx.Nonce, Amount := 0,
          GasLimit := gasLimit, GasPrice := tx.GasPrice, Data := data, CheckNonce := true } ∧
    ∀ parser : String → Option Int,
      tx.toMessage { L with parseBig256 := parser } ps = tx.toMessage L ps := by
  have hd' := (goIndex_ok_bounds _ _ _ hd).2
  have hv' := (goIndex_ok_bounds _ _ _ hv).2
  have hg' := (goIndex_ok_bounds _ _ _ hg).2
  have hd2 : ¬ ps.Indexes.Data > (tx.Data.length : Int) := by omega
  have hv2 : ¬ ps.Indexes.Value > (tx.Value.length : Int) := by omega
  have hg2 : ¬ ps.Indexes.Gas > (tx.GasLimit.length : Int) := by omega
  have key : ∀ parser : String → Option Int,
      tx.toMessage { L with parseBig256 := parser } ps = .ok
        { From := sender, To := recipient, Nonce := tx.Nonce, Amount := 0,
          GasLimit := gasLimit, GasPrice := tx.GasPrice, Data := data, CheckNonce := true } := by
    intro parser
    have hs2 : tx.sender { L with parseBig256 := parser } = .ok sender := by
      rw [sender_any_value_parsing, hs]
    have hr2 : tx.recipient { L with parseBig256 := parser } = .ok recipient := by
      rw [recipient_any_value_parsing, hr]
    unfold stTransaction.toMessage
    simp only [hs2, hr2, hd2, hv2, hg2, if_false, hd, hv, hg]
    have hp : parseValue { L with parseBig256 := parser } "0x" = .ok 0 := by
      simp [parseValue]
    simp only [hp, hdata]
  have hL : tx.toMessage L ps = .ok
        { From := sender, To := recipient, Nonce := tx.Nonce, Amount := 0,
          GasLimit := gasLimit, GasPrice := tx.GasPrice, Data := data, CheckNonce := true } :=
    key L.parseBig256
  exact ⟨hL, fun parser => (key parser).trans hL.symm⟩

/-- Witness of C4: the sample transaction, whose only value is "0x", under a
library whose value parser rejects every string. -/
theorem toMessage_zero_value_literal_witness :
    goIndex demoTx.Value (demoPost [] 0 0 0).Indexes.Value = .ok "0x" ∧
    (demoTx.toMessage demoLib (demoPost [] 0 0 0) = .ok
        { From := zeroAddress, To := none, Nonce := demoTx.Nonce, Amount := 0,
          GasLimit := 21000, GasPrice := demoTx.GasPrice, Data := [], CheckNonce := true } ∧
    ∀ parser : String → Option Int,
      demoTx.toMessage { demoLib with parseBig256 := parser } (demoPost [] 0 0 0) =
        demoTx.toMessage demoLib (demoPost [] 0 0 0)) :=
  ⟨by rfl,
    toMessage_zero_value_literal demoLib demoTx (demoPost [] 0 0 0) zeroAddress none "0x"
      21000 [] (by rfl) (by rfl) (by rfl) (by rfl) (by rfl) (by rfl)⟩

/-! ## Execution driver: unsupported fork (C5) -/

/-- C5: when the fork of the subtest is not recognised by the chain
configuration lookup, `RunNoVerify` returns the unsupported-fork error carrying
that fork name, a nil store and the zero root, having made no call on a store
or on the engine; neither the post-state index nor the transaction is read, so
this holds for every index under that fork. -/
theorem RunNoVerify_unsupported_fork (L : Lib) (t : StateTest) (st : StateSubtest)
    (hfork : L.getChainConfig st.Fork = none) :
    t.RunNoVerify L st = .ok
      { statedb := none, root := zeroHash, err := some (.unsupportedFork st.Fork),
        calls := [] } := by
  unfold StateTest.RunNoVerify
  simp only [hfork]

/-- Witness of C5: the fork Quux, at an index that has no post-state entry. -/
theorem RunNoVerify_unsupported_fork_witness :
    demoLib.getChainConfig "Quux" = none ∧
    (demoTest [("Quux", [demoPost [] 7 7 7])]).RunNoVerify demoLib ⟨"Quux", 3⟩ = .ok
      { statedb := none, root := zeroHash, err := some (.unsupportedFork "Quux"),
        calls := [] } :=
  ⟨by rfl, RunNoVerify_unsupported_fork demoLib _ ⟨"Quux", 3⟩ (by rfl)⟩

/-! ## Verification of the root (C6) and of the logs (C7) -/

/-- A run without error has read its post-state entry. -/
theorem RunNoVerify_ok_post (L : Lib) (t : StateTest) (st : StateSubtest)
    (out : NoVerifyOut L) (h : t.RunNoVerify L st = .ok out) (herr : out.err = none) :
    ∃ post, t.post st = .ok post := by
  unfold StateTest.RunNoVerify at h
  cases hfork : L.getChainConfig st.Fork with
  | none =>
    simp only [hfork] at h
    cases h
    cases herr
  | some cfg =>
    obtain ⟨config, eips⟩ := cfg
    simp only [hfork] at h
    cases hpost : t.post st with
    | error f =>
      simp only [hpost] at h
      cases h
    | ok post => exact ⟨post, rfl⟩

/-- C6: when `RunNoVerify` succeeds with root r, `Run` returns no error if r is
the expected root of the post-state entry and otherwise the error "post state
root mismatch: got r, want expected" with both roots in hexadecimal; when
`RunNoVerify` fails with an error, `Run` returns that same error. The store
and the calls are passed through unchanged. -/
theorem Run_compares_root (L : Lib) (t : StateTest) (st : StateSubtest)
    (out : NoVerifyOut L) (h : t.RunNoVerify L st = .ok out) :
    (out.err = none →
      ∃ post, t.post st = .ok post ∧
        (out.root = post.Root →
          t.Run L st = .ok { statedb := out.statedb, err := none, calls := out.calls }) ∧
        (out.root ≠ post.Root →
          t.Run L st = .ok
            { statedb := out.statedb
              err := some (.errorf ("post state root mismatch: got " ++ hexString out.root ++
                ", want " ++ hexString post.Root))
              calls := out.calls })) ∧
    (∀ e, out.err = some e →
      t.Run L st = .ok { statedb := out.statedb, err := some e, calls := out.calls }) := by
  constructor
  · intro herr
    obtain ⟨post, hpost⟩ := RunNoVerify_ok_post L t st out h herr
    refine ⟨post, hpost, ?_, ?_⟩
    · intro hroot
      unfold StateTest.Run
      simp only [h, herr, hpost, hroot, ne_eq, not_true_eq_false, if_false]
    · intro hroot
      unfold StateTest.Run
      simp only [h, herr, hpost, ne_eq, hroot, not_false_eq_true, if_true]
  · intro e herr
    unfold StateTest.Run
    simp only [h, herr]

/-- Witness of C6: under `hashLib` the run computes the 32-byte root
`journalHash` while the post-state entry expects 32 bytes 0xff; `Run` returns
the mismatch message with both roots written out in hexadecimal, the store and
the calls of `RunNoVerify` unchanged. -/
theorem Run_compares_root_witness :
    ∃ out, (demoTest [("Istanbul", [demoPost onesHash 0 0 0])]).RunNoVerify hashLib
        ⟨"Istanbul", 0⟩ = .ok out ∧ out.err = none ∧ out.root = journalHash ∧
      (demoTest [("Istanbul", [demoPost onesHash 0 0 0])]).Run hashLib ⟨"Istanbul", 0⟩ =
        .ok
          { statedb := out.statedb
            err := some (.errorf
              ("post state root mismatch: got " ++
                "010608070a0c0000000000000000000000000000000000000000000000000000" ++
                ", want " ++
                "ffffffffffffffffffffffffffffffffffffffffffffffffffffffffffffffff"))
            calls := out.calls } := by
  refine ⟨_, rfl, rfl, rfl, ?_⟩
  obtain ⟨post, hpost, _, hne⟩ :=
    (Run_compares_root hashLib (demoTest [("Istanbul", [demoPost onesHash 0 0 0])])
      ⟨"Istanbul", 0⟩ _ rfl).1 rfl
  have hp : (demoTest [("Istanbul", [demoPost onesHash 0 0 0])]).post ⟨"Istanbul", 0⟩ =
      .ok (demoPost onesHash 0 0 0) := by rfl
  rw [hp] at hpost
  cases hpost
  exact hne (by decide)

/-- The verb `%x` writes two digits per byte. -/
theorem hexString_length (bs : List Nat) : (hexString bs).length = 2 * bs.length := by
  unfold hexString
  simp only [String.length]
  induction bs with
  | nil => rfl
  | cons b rest ih =>
    simp only [List.flatMap_cons, List.length_append, List.length_cons, List.length_nil, ih]
    omega

/-- C7, evaluated on the code: a subtest whose computed root is the expected one
but whose computed logs hash differs from the expected logs hash; `Run` returns
no error and the subtest is recorded as passed. -/
theorem Run_ignores_logs_hash :
    ∃ out sdb post,
      (demoTest [("Istanbul", [demoPost [1, 6, 8, 7, 10, 12] 0 0 0])]).Run demoLib
        ⟨"Istanbul", 0⟩ = .ok out ∧
      out.err = none ∧ out.statedb = some sdb ∧
      (demoTest [("Istanbul", [demoPost [1, 6, 8, 7, 10, 12] 0 0 0])]).post ⟨"Istanbul", 0⟩ =
        .ok post ∧
      demoLib.logsHash sdb ≠ post.Logs ∧
      record demoLib "t" (demoTest [("Istanbul", [demoPost [1, 6, 8, 7, 10, 12] 0 0 0])])
        ⟨"Istanbul", 0⟩ =
        .ok { Name := "t", Pass := true, Fork := "Istanbul", Error := "", State := none } :=
  ⟨_, _, _, rfl, rfl, rfl, rfl, by decide, rfl⟩

/-! ## Execution driver: rollback, commit, coinbase touch, root (C10) -/

/-- C10 as stated fails: under the recognised fork Istanbul the transaction
without gas price yields a message (`toMessage` succeeds), yet `RunNoVerify`
panics at line 150 on the nil gas price, after the pre-state load and before
any snapshot: it returns nothing and neither commits, nor touches the coinbase,
nor computes a root. -/
theorem RunNoVerify_nil_gas_price_counterexample :
    demoLib.getChainConfig "Istanbul" = some (true, []) ∧
    noPriceTx.toMessage demoLib (demoPost [] 0 0 0) = .ok noPriceMsg ∧
    (noPriceTest [("Istanbul", [demoPost [] 0 0 0])]).RunNoVerify demoLib ⟨"Istanbul", 0⟩ =
      .error .nilPointerDereference ∧
    ∀ out : NoVerifyOut demoLib,
      (noPriceTest [("Istanbul", [demoPost [] 0 0 0])]).RunNoVerify demoLib ⟨"Istanbul", 0⟩ ≠
        .ok out :=
  ⟨by rfl, by rfl, by rfl, fun out h => by
    have h2 : (noPriceTest [("Istanbul", [demoPost [] 0 0 0])]).RunNoVerify demoLib
        ⟨"Istanbul", 0⟩ = .error .nilPointerDereference := by rfl
    rw [h2] at h
    cases h⟩

/-- C10, amended: for a subtest with a recognised fork, an existing post-state
entry and a message that `toMessage` builds with a gas price, `RunNoVerify`
returns no error. After the pre-state load it takes a snapshot and applies the
message on the context of line 150; when the application reports an error it
reverts to that snapshot, otherwise it does not; in both cases it then commits,
adds a zero balance to the coinbase of the block and computes the intermediate
root, commit and root taking the same pruning flag `IsEIP158` of the block
number. The store and root returned are those of this sequence. -/
theorem RunNoVerify_rollback_commit_touch_root (L : Lib) (t : StateTest) (st : StateSubtest)
    (config : L.ChainConfig) (eips : List Int) (ps : stPostState) (msg : Message)
    (price : Int)
    (hfork : L.getChainConfig st.Fork = some (config, eips)) (hpost : t.post st = .ok ps)
    (hmsg : t.json.Tx.toMessage L ps = .ok msg) (hprice : msg.GasPrice = some price) :
    let block := L.toBlock (t.genesis config)
    let gas := L.blockGasLimit block
    let context : EVMContext :=
      { Origin := msg.From, Coinbase := t.json.Env.Coinbase, GasPrice := price }
    let snap := L.snapshot (MakePreState L t.json.Pre).db
    let applied := L.applyMessage config eips block context msg gas snap.2
    let prune := L.isEIP158 config (L.blockNumber block)
    let coinbase := L.blockCoinbase block
    (∀ e, applied.1 = some e →
      t.RunNoVerify L st = .ok
        { statedb := some (L.intermediateRoot prune (L.addBalance coinbase 0
            (L.commit prune (L.revertToSnapshot snap.1 applied.2)))).2
          root := (L.intermediateRoot prune (L.addBalance coinbase 0
            (L.commit prune (L.revertToSnapshot snap.1 applied.2)))).1
          err := none
          calls := preStateCalls t.json.Pre ++
            [Call.snapshot, Call.applyMessage msg gas, Call.revertToSnapshot snap.1,
              Call.commit prune, Call.addBalance coinbase 0, Call.intermediateRoot prune] }) ∧
    (applied.1 = none →
      t.RunNoVerify L st = .ok
        { statedb := some (L.intermediateRoot prune (L.addBalance coinbase 0
            (L.commit prune applied.2))).2
          root := (L.intermediateRoot prune (L.addBalance coinbase 0
            (L.commit prune applied.2))).1
          err := none
          calls := preStateCalls t.json.Pre ++
            [Call.snapshot, Call.applyMessage msg gas,
              Call.commit prune, Call.addBalance coinbase 0, Call.intermediateRoot prune] }) := by
  intro block gas context snap applied prune coinbase
  have hctx : NewEVMContext msg t.json.Env.Coinbase = .ok context := by
    unfold NewEVMContext
    simp only [hprice, context]
  constructor
  · intro e he
    unfold StateTest.RunNoVerify
    simp only [hfork, hpost, hmsg, hctx, execute, Store.Snapshot, Store.ApplyMessage,
      Store.RevertToSnapshot, Store.Commit, Store.AddBalance, Store.IntermediateRoot,
      MakePreState_calls]
    have he' : (L.applyMessage config eips (L.toBlock (t.genesis config)) context
        msg (L.blockGasLimit (L.toBlock (t.genesis config)))
        (L.snapshot (MakePreState L t.json.Pre).db).2).1 = some e := he
    simp [he', block, gas, snap, applied, prune, coinbase]
  · intro he
    unfold StateTest.RunNoVerify
    simp only [hfork, hpost, hmsg, hctx, execute, Store.Snapshot, Store.ApplyMessage,
      Store.RevertToSnapshot, Store.Commit, Store.AddBalance, Store.IntermediateRoot,
      MakePreState_calls]
    have he' : (L.applyMessage config eips (L.toBlock (t.genesis config)) context
        msg (L.blockGasLimit (L.toBlock (t.genesis config)))
        (L.snapshot (MakePreState L t.json.Pre).db).2).1 = none := he
    simp [he', block, gas, snap, applied, prune, coinbase]

/-- Witness of C10 amended: the engine of `demoLib` refuses the message of
`refusedTx`, whose gas price is 1; the run reverts to snapshot 2, commits,
touches the coinbase and computes the root. -/
theorem RunNoVerify_rollback_commit_touch_root_witness :
    (refusedTest [("Istanbul", [demoPost [] 0 0 0])]).json.Tx.toMessage demoLib
      (demoPost [] 0 0 0) = .ok refusedMsg ∧
    refusedMsg.GasPrice = some 1 ∧
    (demoLib.applyMessage true [] (demoLib.toBlock
      ((refusedTest [("Istanbul", [demoPost [] 0 0 0])]).genesis true)) refusedContext
      refusedMsg 1000 [1, 6]).1 = some "intrinsic gas too low" ∧
    (refusedTest [("Istanbul", [demoPost [] 0 0 0])]).RunNoVerify demoLib ⟨"Istanbul", 0⟩ =
      .ok
        { statedb := some (demoLib.intermediateRoot true [1, 6, 7, 10]).2
          root := [1, 6, 7, 10, 12]
          err := none
          calls := [Call.newStateDB, Call.setParams "cet", Call.commit false, Call.snapshot,
            Call.applyMessage refusedMsg 1000, Call.revertToSnapshot 2, Call.commit true,
            Call.addBalance [1] 0, Call.intermediateRoot true] } :=
  ⟨by rfl, by rfl, by rfl,
    (RunNoVerify_rollback_commit_touch_root demoLib
      (refusedTest [("Istanbul", [demoPost [] 0 0 0])]) ⟨"Istanbul", 0⟩ true []
      (demoPost [] 0 0 0) refusedMsg 1 (by rfl) (by rfl) (by rfl) (by rfl)).1
      "intrinsic gas too low" (by rfl)⟩

/-! ## Reporter: one record per subtest (C8, C9) -/

theorem Subtests_length (t : StateTest) :
    t.Subtests.length = (t.json.Post.map fun p => p.2.length).sum := by
  unfold StateTest.Subtests
  induction t.json.Post with
  | nil => simp
  | cons p rest ih =>
    simp only [List.flatMap_cons, List.length_append, List.length_map, List.length_range,
      List.map_cons, List.sum_cons, ih]

theorem runSubtests_ok_length (L : Lib) (key : String) (test : StateTest) :
    ∀ (sts : List StateSubtest) (results rs : List StatetestResult),
      runSubtests L key test sts results = .ok rs → rs.length = results.length + sts.length := by
  intro sts
  induction sts with
  | nil =>
    intro results rs h
    unfold runSubtests at h
    cases h
    simp
  | cons st rest ih =>
    intro results rs h
    unfold runSubtests at h
    cases hrec : record L key test st with
    | error f =>
      simp only [hrec] at h
      cases h
    | ok result =>
      simp only [hrec] at h
      have := ih _ _ h
      simp at this ⊢
      omega

/-- When no subtest panics, the loops of `runTestFile` add as many records as
the fixture has post-state entries. -/
theorem runTests_ok_length (L : Lib) :
    ∀ (tests : List (String × StateTest)) (results rs : List StatetestResult),
      runTests L tests results = .ok rs → rs.length = results.length + postCount tests := by
  intro tests
  induction tests with
  | nil =>
    intro results rs h
    unfold runTests at h
    cases h
    simp [postCount]
  | cons head rest ih =>
    intro results rs h
    obtain ⟨key, test⟩ := head
    unfold runTests at h
    cases hsub : runSubtests L key test test.Subtests results with
    | error f =>
      simp only [hsub] at h
      cases h
    | ok results' =>
      simp only [hsub] at h
      have h1 := runSubtests_ok_length L key test _ _ _ hsub
      have h2 := ih _ _ h
      rw [Subtests_length] at h1
      simp only [postCount, List.map_cons, List.sum_cons] at h2 ⊢
      omega

theorem mem_Subtests (t : StateTest) (st : StateSubtest) :
    st ∈ t.Subtests ↔
      ∃ p ∈ t.json.Post, st.Fork = p.1 ∧ 0 ≤ st.Index ∧ st.Index < (p.2.length : Int) := by
  unfold StateTest.Subtests
  simp only [List.mem_flatMap, List.mem_map, List.mem_range]
  constructor
  · rintro ⟨p, hp, i, hi, rfl⟩
    refine ⟨p, hp, rfl, ?_, ?_⟩
    · exact Int.ofNat_nonneg i
    · exact Int.ofNat_lt.mpr hi
  · rintro ⟨p, hp, hf, h0, h1⟩
    refine ⟨p, hp, st.Index.toNat, ?_, ?_⟩
    · omega
    · cases st with
      | mk fork index =>
        simp only at hf h0 h1 ⊢
        subst hf
        congr
        exact Int.toNat_of_nonneg h0

/-- With distinct fork keys, as in a Go map, `Subtests` lists no pair twice. -/
theorem Subtests_nodup (t : StateTest) (h : (t.json.Post.map Prod.fst).Nodup) :
    t.Subtests.Nodup := by
  unfold StateTest.Subtests
  rw [List.nodup_flatMap]
  constructor
  · intro p _
    apply List.Nodup.map _ (List.nodup_range _)
    intro i j hij
    simp only [StateSubtest.mk.injEq, true_and] at hij
    exact Int.ofNat.inj hij
  · have hp := List.pairwise_map.mp h
    refine hp.imp ?_
    intro p q hpq
    simp only [Function.onFun, List.disjoint_left, List.mem_map, List.mem_range]
    rintro st ⟨i, _, rfl⟩ ⟨j, _, hj⟩
    simp only [StateSubtest.mk.injEq] at hj
    exact hpq hj.1.symm

/-- When no subtest panics, the inner loop appends the record of each subtest,
in order. -/
theorem runSubtests_ok_records (L : Lib) (key : String) (test : StateTest) :
    ∀ (sts : List StateSubtest) (results rs : List StatetestResult),
      runSubtests L key test sts results = .ok rs →
      ∃ recs, rs = results ++ recs ∧
        List.Forall₂ (fun st r => record L key test st = .ok r) sts recs := by
  intro sts
  induction sts with
  | nil =>
    intro results rs h
    unfold runSubtests at h
    cases h
    exact ⟨[], by simp, List.Forall₂.nil⟩
  | cons st rest ih =>
    intro results rs h
    unfold runSubtests at h
    cases hrec : record L key test st with
    | error f =>
      simp only [hrec] at h
      cases h
    | ok result =>
      simp only [hrec] at h
      obtain ⟨recs, hrs, hall⟩ := ih _ _ h
      exact ⟨result :: recs, by simp [hrs], List.Forall₂.cons hrec hall⟩

/-- The record of a subtest that does not panic: name and fork of the subtest,
pass exactly when `Run` returned no error, else the message of the error. -/
theorem record_ok (L : Lib) (key : String) (test : StateTest) (st : StateSubtest)
    (r : StatetestResult) (h : record L key test st = .ok r) :
    ∃ out, test.Run L st = .ok out ∧ r.Name = key ∧ r.Fork = st.Fork ∧
      (out.err = none → r.Pass = true ∧ r.Error = "") ∧
      (∀ e, out.err = some e → r.Pass = false ∧ r.Error = e.Error L) := by
  unfold record at h
  cases hrun : test.Run L st with
  | error f =>
    simp only [hrun] at h
    cases h
  | ok out =>
    simp only [hrun] at h
    refine ⟨out, rfl, ?_⟩
    cases herr : out.err with
    | none =>
      simp only [herr] at h
      cases h
      simp
    | some e =>
      simp only [herr] at h
      cases h
      simp

/-- C8, evaluated on the code: the fixture `countFixture` has two post-state
entries and `Subtests` lists both, yet `runTestFile` panics on the second
(data index 1 on a data array of length 1) and prints no record. -/
theorem runTestFile_count_failing_input :
    postCount countFixture = 2 ∧
    (demoTest [("Istanbul", [demoPost [1, 6, 8, 7, 10, 12] 0 0 0, demoPost [] 1 0 0])]).Subtests =
      [⟨"Istanbul", 0⟩, ⟨"Istanbul", 1⟩] ∧
    runTestFile (fileLib countFixture) "fixture.json" = .error (.indexOutOfRange 1 1) :=
  ⟨by decide, by decide, by rfl⟩

/-- C9, evaluated on the code: when the fixture holds a subtest with a
recognised fork, an existing post-state entry, a usable sender and recipient,
no index beyond the length of its array and some index outside its array,
`runTestFile` panics: it returns neither nil nor an error and prints no record,
neither for that subtest nor for any other. -/
theorem runTestFile_aborts_on_unguarded_index (L : Lib) (testFile : String) (src : List Nat)
    (tests : List (String × StateTest)) (key : String) (test : StateTest)
    (st : StateSubtest) (cfg : L.ChainConfig × List Int) (ps : stPostState)
    (hread : L.readFile testFile = .ok src) (hparse : L.unmarshalTests src = .ok tests)
    (hmem : (key, test) ∈ tests) (hst : st ∈ test.Subtests)
    (hfork : L.getChainConfig st.Fork = some cfg) (hpost : test.post st = .ok ps)
    (hs : ∃ a, test.json.Tx.sender L = .ok a) (hr : ∃ r, test.json.Tx.recipient L = .ok r)
    (hd : ps.Indexes.Data ≤ (test.json.Tx.Data.length : Int))
    (hv : ps.Indexes.Value ≤ (test.json.Tx.Value.length : Int))
    (hg : ps.Indexes.Gas ≤ (test.json.Tx.GasLimit.length : Int))
    (hout : (ps.Indexes.Data < 0 ∨ (test.json.Tx.Data.length : Int) ≤ ps.Indexes.Data) ∨
      (ps.Indexes.Value < 0 ∨ (test.json.Tx.Value.length : Int) ≤ ps.Indexes.Value) ∨
      (ps.Indexes.Gas < 0 ∨ (test.json.Tx.GasLimit.length : Int) ≤ ps.Indexes.Gas)) :
    ∃ f, runTestFile L testFile = .error f := by
  obtain ⟨f, hf⟩ := toMessage_fault L test.json.Tx ps hs hr hd hv hg hout
  have hrec : record L key test st = .error f :=
    record_fault L key test st f
      (Run_fault L test st f (RunNoVerify_fault L test st cfg ps f hfork hpost hf))
  exact runTestFile_fault L testFile src tests hread hparse
    ⟨(key, test), hmem, st, hst, f, hrec⟩

/-- Witness of C9: in `abortFixture` the first subtest selects value index 1 on
a value array of length 1; the second subtest, under an unknown fork, never
gets its record. -/
theorem runTestFile_aborts_on_unguarded_index_witness :
    (demoPost [] 0 0 1).Indexes.Value = (demoTx.Value.length : Int) ∧
    ∃ f, runTestFile (fileLib abortFixture) "fixture.json" = .error f :=
  ⟨by decide,
    runTestFile_aborts_on_unguarded_index (fileLib abortFixture) "fixture.json" [] abortFixture
      "a" (demoTest [("Istanbul", [demoPost [] 0 0 1])]) ⟨"Istanbul", 0⟩ (true, [])
      (demoPost [] 0 0 1) (by rfl) (by rfl) (by decide) (by decide) (by rfl) (by rfl)
      ⟨zeroAddress, by rfl⟩ ⟨none, by rfl⟩ (by decide) (by decide) (by decide)
      (Or.inr (Or.inl (Or.inr (by decide))))⟩

end Ethermintvm
